import Mathlib

/-!
Verification of the `ApiScheme` token scheme (`src/Schemes/Api.js`) of the
`adonis-custom-v4-auth` repository.

The scheme issues and validates opaque bearer API tokens.  The embedding below
translates the scheme's methods (`generate`, `check`, `loginIfCan`,
`listTokensForUser`) into pure Lean functions.  Stateful pieces (the attached
request user `this.user` and the serializer-persisted token store) are passed
explicitly; collaborator calls are additionally recorded as an explicit effect
trace so that ordering and frame properties can be stated.  External
collaborators (the encryption service and the token store / serializer) are
modelled per the specification's collaborator interfaces; functions that model
them carry a doc comment saying so.

JavaScript strings are modelled as Lean `String`; `str.split(sep)` is modelled
by the `splitChar` / `splitDelim` functions below, which reproduce JavaScript's
first-occurrence splitting semantics.  JavaScript falsiness of the values that
occur here (absent property, `null`, `''`) is modelled by `jsFalsy` on
`Option String`.  Thrown JavaScript errors are modelled by `Except AuthError`;
in particular, evaluating an undeclared identifier in strict mode throws a
`ReferenceError`, modelled by `AuthError.referenceError`.
-/

/-- The payload delimiter of `src/Schemes/Api.js` line 18: `DELIMITER = ":~~:"`. -/
def DELIMITER : String := ":~~:"

/-- The characters of `DELIMITER`, used by the list-level splitting function. -/
def delimChars : List Char := [':', '~', '~', ':']

/-- JavaScript `str.split(sep)` for a single-character separator `sep`,
on the character list of the string: splits at every occurrence of `sep`,
keeping empty pieces (so `"a_".split('_') = ["a", ""]` and `"".split('_') = [""]`). -/
def splitChar (sep : Char) : List Char → List (List Char)
  | [] => [[]]
  | c :: rest =>
    if c = sep then [] :: splitChar sep rest
    else
      let r := splitChar sep rest
      (c :: r.headD []) :: r.tail

/-- JavaScript `str.split(":~~:")` on the character list of the string: splits at
every (leftmost-first) occurrence of the four-character delimiter `":~~:"`. -/
def splitDelim : List Char → List (List Char)
  | ':' :: '~' :: '~' :: ':' :: rest => [] :: splitDelim rest
  | c :: rest =>
    let r := splitDelim rest
    (c :: r.headD []) :: r.tail
  | [] => [[]]

/-- String-level wrapper for `splitChar`: JavaScript `s.split(sep)`. -/
def jsSplitChar (sep : Char) (s : String) : List String :=
  (splitChar sep s.toList).map String.mk

/-- String-level wrapper for `splitDelim`: JavaScript `s.split(":~~:")`. -/
def jsSplitDelimiter (s : String) : List String :=
  (splitDelim s.toList).map String.mk

/-- JavaScript falsiness of the option-valued expressions that occur in the
scheme (`this.group`, `user[this.primaryKey]`): absent/`null` and the empty
string are falsy. -/
def jsFalsy : Option String → Bool
  | none => true
  | some s => s == ""

/-- A token record persisted by the serializer collaborator.
Modelled from the spec: `TokenStore` record
`{foreignKey→userId, type, plainTokenOrHash, ...}`; `extra` holds the
`columns` object forwarded by `generate`. -/
structure StoredToken where
  userId : String
  token : String
  ttype : String
  extra : List (String × String)
deriving DecidableEq

/-- The state the scheme reads and writes: the request-scoped attached user
(`this.user`, holding the resolved user's id) and the serializer-persisted
token store. -/
structure AuthState where
  user : Option String
  store : List StoredToken
deriving DecidableEq

/-- Input of one `generate(user, tokenType, environment, columns)` call:
`userId` is `user[this.primaryKey]` (none models an absent/null key),
`plainToken` is the fresh dash-stripped `uuid.v4()` value (an input,
modelling the generator's nondeterminism), `extra` is `columns`. -/
structure GenInput where
  tokenType : String
  environment : String
  userId : Option String
  plainToken : String
  extra : List (String × String)
deriving DecidableEq

/-- The result object `{ type: 'bearer', token }` of `generate`. -/
structure BearerResult where
  type : String
  token : String
deriving DecidableEq

/-- Errors raised by the scheme:
`runtimeException msg` models `GE.RuntimeException.invoke(msg)`;
`invalidApiToken` models `CE.InvalidApiToken.invoke()`;
`referenceError name` models the JavaScript `ReferenceError` raised by
evaluating the undeclared identifier `name` in strict mode. -/
inductive AuthError
  | runtimeException (msg : String)
  | invalidApiToken
  | referenceError (name : String)
deriving DecidableEq

/-- Collaborator calls made by `generate`, in order: the serializer save
(`saveToken`, state-changing) and the encryption of the payload
(`encryptCall`, pure). -/
inductive GenEffect
  | saveToken (userId plainToken tokenType : String) (extra : List (String × String))
  | encryptCall (payload : String)
deriving DecidableEq

/-- Collaborator calls made by `check` / `loginIfCan`: reading the
Authorization header, decrypting a ciphertext, and the token-store lookup. -/
inductive CheckEffect
  | readHeader
  | decryptCall (ciphertext : String)
  | findByTokenCall (plainToken tokenType : String)
deriving DecidableEq

/-- Whether a `generate` collaborator call changes persistent or request state. -/
def stateChanging : GenEffect → Bool
  | .saveToken _ _ _ _ => true
  | .encryptCall _ => false

/-- `ApiScheme.generate` (`src/Schemes/Api.js` lines 111-148), for a fixed
encryption collaborator `encrypt` and configured `group` (`this.group`).
Validations in source order: empty `tokenType`, falsy `group`, empty
`environment`, `environment.includes('_')`, then falsy
`user[this.primaryKey]`.  On success it saves the plain token via the
serializer, then encrypts `userId ++ DELIMITER ++ plainToken` and composes the
wire token `tokenType_environment_cipher`.  The serializer save is modelled
from the spec (`TokenStore.save` appends a persisted record). -/
def generate (encrypt : String → String) (group : Option String)
    (st : AuthState) (inp : GenInput) :
    Except AuthError BearerResult × AuthState × List GenEffect :=
  if inp.tokenType = "" then
    (.error (.runtimeException "Token type cannot be empty"), st, [])
  else if jsFalsy group then
    (.error (.runtimeException "Token group cannot be empty"), st, [])
  else if inp.environment = "" then
    (.error (.runtimeException "Token environment cannot be empty"), st, [])
  else if '_' ∈ inp.environment.toList then
    (.error (.runtimeException "Token environment cannot contain underscores"), st, [])
  else
    match inp.userId with
    | none => (.error (.runtimeException "Primary key value is missing for user"), st, [])
    | some uid =>
      if uid = "" then
        (.error (.runtimeException "Primary key value is missing for user"), st, [])
      else
        let payload := uid ++ DELIMITER ++ inp.plainToken
        let cipher := encrypt payload
        let token := inp.tokenType ++ "_" ++ inp.environment ++ "_" ++ cipher
        (.ok ⟨"bearer", token⟩,
         { user := st.user,
           store := st.store ++ [⟨uid, inp.plainToken, inp.tokenType, inp.extra⟩] },
         [.saveToken uid inp.plainToken inp.tokenType inp.extra,
          .encryptCall payload])

/-- Modelled from the spec: `BaseTokenScheme.getAuthHeader(['bearer', 'token'])`
(the base class is not under `src/`).  Per the spec, the accepted Authorization
header schemes are `Bearer <token>` and `token <token>`; the token part is
returned, otherwise none.  The `token` input-field fallback is subsumed by the
`authorization` input being optional. -/
def getAuthHeader (authorization : Option String) : Option String :=
  match authorization with
  | none => none
  | some h =>
    match (splitChar ' ' h.toList).map String.mk with
    | [scheme, tok] => if scheme == "Bearer" || scheme == "token" then some tok else none
    | _ => none

/-- `ApiScheme.check` (`src/Schemes/Api.js` lines 173-212).  If a user is
already attached it returns true at once (no collaborator calls).  A missing
token raises `InvalidApiToken`.  Otherwise line 187 splits the token on `'_'`
and line 188 reads `if (group !== this.group)`: `group` is an undeclared
identifier (nothing in the module's or function's scope binds it), so strict
mode raises `ReferenceError: group is not defined` before the comparison, and
lines 192-211 (decrypt, store lookup, attach user) are unreachable. -/
def check (_group : Option String) (st : AuthState) (authorization : Option String) :
    Except AuthError Bool × AuthState × List CheckEffect :=
  match st.user with
  | some _ => (.ok true, st, [])
  | none =>
    match getAuthHeader authorization with
    | none => (.error .invalidApiToken, st, [.readHeader])
    | some token =>
      let _parts := (splitChar '_' token.toList).map String.mk
      (.error (.referenceError "group"), st, [.readHeader])

/-- `ApiScheme.loginIfCan` (`src/Schemes/Api.js` lines 229-249): true at once
if a user is attached; false without calling `check` when no token is present;
otherwise delegates to `check` and downgrades any raised error to false. -/
def loginIfCan (group : Option String) (st : AuthState) (authorization : Option String) :
    Bool × AuthState × List CheckEffect :=
  match st.user with
  | some _ => (true, st, [])
  | none =>
    match getAuthHeader authorization with
    | none => (false, st, [.readHeader])
    | some _ =>
      match check group st authorization with
      | (.ok b, st', effs) => (b, st', .readHeader :: effs)
      | (.error _, st', effs) => (false, st', .readHeader :: effs)

/-- Modelled from the spec: the serializer's `listTokens(user, type)`
collaborator (`TokenStore.list(user, type) → sequence<record>`): the persisted
records of that user with that type. -/
def listTokens (store : List StoredToken) (userId : String) (ttype : String) :
    List StoredToken :=
  store.filter (fun r => r.userId == userId && r.ttype == ttype)

/-- `ApiScheme.listTokensForUser` (`src/Schemes/Api.js` lines 261-271): empty
for a falsy user; otherwise lists the user's tokens of the hard-coded type
`'api_token'` and re-encrypts each record's `token` field. -/
def listTokensForUser (encrypt : String → String) (st : AuthState)
    (user : Option String) : List StoredToken :=
  match user with
  | none => []
  | some uid =>
    (listTokens st.store uid "api_token").map (fun r => { r with token := encrypt r.token })

/-- The wire-token composition of `generate` lines 144-145 as a standalone
codec function: `tokenType_environment_encrypt(userId ++ DELIMITER ++ plainToken)`. -/
def encodeToken (encrypt : String → String)
    (userId plainToken tokenType environment : String) : String :=
  tokenType ++ "_" ++ environment ++ "_" ++ encrypt (userId ++ DELIMITER ++ plainToken)

/-- Result of decoding a wire token along `check`'s data path; each field is
optional because JavaScript array destructuring yields `undefined` for absent
positions. -/
structure DecodedWire where
  tokenType : Option String
  environment : Option String
  userId : Option String
  plainToken : Option String
deriving DecidableEq

/-- The decode data path of `check` (lines 187 and 196-197, as exercised were
line 188 not defective): split the wire value on `'_'` into
`[tokenType, environment, ...tokens]`, decrypt `tokens.join("")` (none models
a thrown decryption error), and split the decrypted payload on `DELIMITER`
into `[userId, plainToken]`. -/
def decodeToken (decrypt : String → Option String) (wire : String) :
    Option DecodedWire :=
  let parts := jsSplitChar '_' wire
  let tokens := parts.drop 2
  match decrypt (String.join tokens) with
  | none => none
  | some payload =>
    let pieces := jsSplitDelimiter payload
    some ⟨parts.head?, (parts.drop 1).head?, pieces.head?, (pieces.drop 1).head?⟩

/-- Counterexample encryption collaborator: prepends an underscore.  It
satisfies the spec's collaborator contract together with `cexDecrypt`. -/
def cexEncrypt (s : String) : String :=
  String.mk ('_' :: s.toList)

/-- Counterexample decryption collaborator: inverse of `cexEncrypt` (strips the
leading underscore; fails on any other input, as decryption fails on tamper). -/
def cexDecrypt (s : String) : Option String :=
  match s.toList with
  | '_' :: rest => some (String.mk rest)
  | _ => none

/-- Whether a `generate` call passes all of its validations (computed from the
inputs alone; `generate`'s success does not depend on the state). -/
def genOk (group : Option String) (inp : GenInput) : Bool :=
  !(inp.tokenType == "") && !jsFalsy group && !(inp.environment == "")
    && !(decide ('_' ∈ inp.environment.toList)) && !jsFalsy inp.userId

/-- The primary-key value of a `generate` input (defaulting an absent key,
only meaningful when `genOk` holds). -/
def uidOf (inp : GenInput) : String := inp.userId.getD ""

/-- The payload `userId ++ DELIMITER ++ plainToken` that `generate` encrypts. -/
def payloadOf (inp : GenInput) : String := uidOf inp ++ DELIMITER ++ inp.plainToken

/-- The token record a successful `generate` call persists. -/
def recOf (inp : GenInput) : StoredToken :=
  ⟨uidOf inp, inp.plainToken, inp.tokenType, inp.extra⟩

/-- The first validation error raised by a failing `generate` call, in source
order of the checks. -/
def genErr (group : Option String) (inp : GenInput) : AuthError :=
  if inp.tokenType = "" then .runtimeException "Token type cannot be empty"
  else if jsFalsy group then .runtimeException "Token group cannot be empty"
  else if inp.environment = "" then .runtimeException "Token environment cannot be empty"
  else if '_' ∈ inp.environment.toList then
    .runtimeException "Token environment cannot contain underscores"
  else .runtimeException "Primary key value is missing for user"

/-- A sequence of `generate` calls threaded through the state (each call's
resulting state feeds the next call). -/
def runGenerates (encrypt : String → String) (group : Option String)
    (st : AuthState) (calls : List GenInput) : AuthState :=
  calls.foldl (fun s c => (generate encrypt group s c).2.1) st

/-! ### Lemmas about the JavaScript split functions -/

/-- Splitting a separator-free list yields the single whole piece. -/
theorem splitChar_of_not_mem (sep : Char) (l : List Char) (h : sep ∉ l) :
    splitChar sep l = [l] := by
  induction l with
  | nil => rfl
  | cons c rest ih =>
    simp only [List.mem_cons, not_or] at h
    have hc : c ≠ sep := fun hh => h.1 hh.symm
    simp [splitChar, hc, ih h.2]

/-- Splitting at the first separator occurrence peels off the prefix. -/
theorem splitChar_append (sep : Char) (a b : List Char) (h : sep ∉ a) :
    splitChar sep (a ++ sep :: b) = a :: splitChar sep b := by
  induction a with
  | nil => simp [splitChar]
  | cons c a ih =>
    simp only [List.mem_cons, not_or] at h
    have hc : c ≠ sep := fun hh => h.1 hh.symm
    simp [splitChar, hc, ih h.2]

/-- Unfolding `splitDelim` at a head character that cannot start the delimiter. -/
theorem splitDelim_cons_ne (c : Char) (rest : List Char) (h : c ≠ ':') :
    splitDelim (c :: rest) = (c :: (splitDelim rest).headD []) :: (splitDelim rest).tail := by
  rw [splitDelim.eq_def]
  split
  · next heq => simp_all
  · next heq =>
    injection heq with h1 h2
    subst h1
    subst h2
    rfl
  · next heq => simp_all

/-- Splitting a list free of the delimiter's first character yields one piece. -/
theorem splitDelim_of_not_mem (l : List Char) (h : ':' ∉ l) :
    splitDelim l = [l] := by
  induction l with
  | nil => rfl
  | cons c rest ih =>
    simp only [List.mem_cons, not_or] at h
    have hc : c ≠ ':' := fun hh => h.1 hh.symm
    simp [splitDelim_cons_ne c rest hc, ih h.2]

/-- Splitting at the first delimiter occurrence peels off the prefix. -/
theorem splitDelim_append (a b : List Char) (h : ':' ∉ a) :
    splitDelim (a ++ [':', '~', '~', ':'] ++ b) = a :: splitDelim b := by
  induction a with
  | nil => simp [splitDelim]
  | cons c a ih =>
    simp only [List.mem_cons, not_or] at h
    have hc : c ≠ ':' := fun hh => h.1 hh.symm
    simp only [List.cons_append, splitDelim_cons_ne c _ hc, ih h.2]
    rfl

/-! ### Characterization of `generate` -/

/-- `generate` either passes all validations and returns the bearer result,
the state extended by the saved record, and the save-then-encrypt trace, or
fails with the first validation error, leaving the state untouched and making
no collaborator call. -/
theorem generate_eq (encrypt : String → String) (group : Option String)
    (st : AuthState) (inp : GenInput) :
    generate encrypt group st inp
      = if genOk group inp then
          (Except.ok ⟨"bearer",
             inp.tokenType ++ "_" ++ inp.environment ++ "_" ++ encrypt (payloadOf inp)⟩,
           ⟨st.user, st.store ++ [recOf inp]⟩,
           [GenEffect.saveToken (uidOf inp) inp.plainToken inp.tokenType inp.extra,
            GenEffect.encryptCall (payloadOf inp)])
        else (Except.error (genErr group inp), st, []) := by
  unfold generate genOk genErr payloadOf recOf
  cases hu : inp.userId with
  | none => split_ifs <;> simp_all [jsFalsy, uidOf]
  | some uid => split_ifs <;> simp_all [jsFalsy, uidOf]

/-! ### Claim theorems -/

/-- C3 counterexample: the claim's round trip fails for ciphertexts that the
encryption collaborator may legitimately produce.  `cexEncrypt`/`cexDecrypt`
satisfy the collaborator contract (first conjunct shows it on the payload in
question), yet because the produced ciphertext contains `'_'` (second
conjunct), `check`'s `tokens.join("")` reassembly corrupts it and decoding
fails entirely (third conjunct).  Independently, the claim allows a `tokenType`
containing `'_'` (it only requires non-emptiness), and for `tokenType = "a_b"`
decoding misparses the wire value even with an identity cipher, recovering
userId `"live42"` instead of `"42"` (fourth conjunct). -/
theorem decodeEncode_counterexample :
    cexDecrypt (cexEncrypt "42:~~:deadbeef") = some "42:~~:deadbeef"
  ∧ '_' ∈ (cexEncrypt "42:~~:deadbeef").toList
  ∧ decodeToken cexDecrypt (encodeToken cexEncrypt "42" "deadbeef" "api" "live") = none
  ∧ decodeToken (fun s => some s) (encodeToken (fun s => s) "42" "deadbeef" "a_b" "live")
      = some ⟨some "a", some "b", some "live42", some "deadbeef"⟩ := by
  refine ⟨by decide, by decide, by decide, by decide⟩

/-- C3 (amended): the encode/decode round trip over `check`'s data path
recovers the original `userId` and `plainToken` (and the `tokenType` and
`environment` segments), provided — beyond the claim's hypotheses that
`tokenType` and `environment` are non-empty and `environment` is `'_'`-free —
that `tokenType` and the produced ciphertext are also `'_'`-free and that
`userId` and `plainToken` avoid the delimiter's `':'` character, and that the
decryption collaborator inverts the encryption on this payload. -/
theorem decodeEncode_roundtrip (encrypt : String → String) (decrypt : String → Option String)
    (userId plainToken tokenType environment : String)
    (_htt : tokenType ≠ "") (_henv : environment ≠ "")
    (htu : '_' ∉ tokenType.toList) (heu : '_' ∉ environment.toList)
    (hcu : '_' ∉ (encrypt (userId ++ DELIMITER ++ plainToken)).toList)
    (hud : ':' ∉ userId.toList) (hpd : ':' ∉ plainToken.toList)
    (hdec : decrypt (encrypt (userId ++ DELIMITER ++ plainToken))
        = some (userId ++ DELIMITER ++ plainToken)) :
    decodeToken decrypt (encodeToken encrypt userId plainToken tokenType environment)
      = some ⟨some tokenType, some environment, some userId, some plainToken⟩ := by
  have hmk : ∀ s : String, String.mk s.toList = s := fun _ => rfl
  have h1 : (encodeToken encrypt userId plainToken tokenType environment).toList
      = tokenType.toList ++ '_' ::
          (environment.toList ++ '_' :: (encrypt (userId ++ DELIMITER ++ plainToken)).toList) := by
    show tokenType.toList ++ "_".toList ++ environment.toList ++ "_".toList ++ _ = _
    simp
  have h2 : splitChar '_' (encodeToken encrypt userId plainToken tokenType environment).toList
      = [tokenType.toList, environment.toList,
         (encrypt (userId ++ DELIMITER ++ plainToken)).toList] := by
    rw [h1, splitChar_append _ _ _ htu, splitChar_append _ _ _ heu,
        splitChar_of_not_mem _ _ hcu]
  have h3 : (userId ++ DELIMITER ++ plainToken).toList
      = userId.toList ++ [':', '~', '~', ':'] ++ plainToken.toList := by
    show userId.toList ++ DELIMITER.toList ++ plainToken.toList = _
    rfl
  have h4 : splitDelim (userId ++ DELIMITER ++ plainToken).toList
      = [userId.toList, plainToken.toList] := by
    rw [h3, splitDelim_append _ _ hud, splitDelim_of_not_mem _ hpd]
  unfold decodeToken jsSplitChar jsSplitDelimiter
  rw [h2]
  simp only [List.map_cons, List.map_nil, List.drop_succ_cons, List.drop_zero, hmk]
  have hjoin : String.join [encrypt (userId ++ DELIMITER ++ plainToken)]
      = encrypt (userId ++ DELIMITER ++ plainToken) := by
    apply String.ext
    simp
  rw [hjoin, hdec]
  simp only [h4, List.map_cons, List.map_nil, hmk, List.head?_cons, List.drop_succ_cons,
    List.drop_zero]

/-- C3 witness: the round trip at a concrete valid input with an identity
cipher, all hypotheses discharged by evaluation. -/
theorem decodeEncode_roundtrip_witness :
    ("api" ≠ "" ∧ "live" ≠ "" ∧ '_' ∉ "api".toList ∧ '_' ∉ "live".toList
      ∧ ':' ∉ "42".toList ∧ ':' ∉ "deadbeef".toList)
  ∧ decodeToken (fun s => some s) (encodeToken (fun s => s) "42" "deadbeef" "api" "live")
      = some ⟨some "api", some "live", some "42", some "deadbeef"⟩ :=
  ⟨⟨by decide, by decide, by decide, by decide, by decide, by decide⟩,
   decodeEncode_roundtrip (fun s => s) (fun s => some s) "42" "deadbeef" "api" "live"
     (by decide) (by decide) (by decide) (by decide) (by decide) (by decide) (by decide) rfl⟩

/-- Helper: a `generate` call that passes validation has a present, non-empty
primary-key value, equal to `uidOf`. -/
theorem genOk_userId (group : Option String) (inp : GenInput)
    (h : genOk group inp = true) : inp.userId = some (uidOf inp) := by
  unfold genOk jsFalsy at h
  cases hu : inp.userId with
  | none => simp [hu] at h
  | some uid => simp [uidOf, hu]

/-- C5: `generate` fails eagerly with `RuntimeException('Token type cannot be
empty')` for an empty tokenType, `RuntimeException('Token group cannot be
empty')` for an unset/empty configured group, `RuntimeException('Token
environment cannot be empty')` / `('Token environment cannot contain
underscores')` for a bad environment (the spec's `ConfigurationError`
category), and with the distinct `RuntimeException('Primary key value is
missing for user')` (the spec's `MissingIdentityError`) for a user lacking a
primary-key value; all five are distinct from the per-request token error
`InvalidApiToken`. -/
theorem generate_error_taxonomy (encrypt : String → String) (group : Option String)
    (st : AuthState) (inp : GenInput) :
    (inp.tokenType = "" →
      (generate encrypt group st inp).1
        = .error (.runtimeException "Token type cannot be empty"))
  ∧ (inp.tokenType ≠ "" → jsFalsy group = true →
      (generate encrypt group st inp).1
        = .error (.runtimeException "Token group cannot be empty"))
  ∧ (inp.tokenType ≠ "" → jsFalsy group = false → inp.environment = "" →
      (generate encrypt group st inp).1
        = .error (.runtimeException "Token environment cannot be empty"))
  ∧ (inp.tokenType ≠ "" → jsFalsy group = false → inp.environment ≠ "" →
        '_' ∈ inp.environment.toList →
      (generate encrypt group st inp).1
        = .error (.runtimeException "Token environment cannot contain underscores"))
  ∧ (inp.tokenType ≠ "" → jsFalsy group = false → inp.environment ≠ "" →
        '_' ∉ inp.environment.toList → jsFalsy inp.userId = true →
      (generate encrypt group st inp).1
        = .error (.runtimeException "Primary key value is missing for user"))
  ∧ ((AuthError.runtimeException "Primary key value is missing for user"
        ∉ [AuthError.runtimeException "Token type cannot be empty",
           AuthError.runtimeException "Token group cannot be empty",
           AuthError.runtimeException "Token environment cannot be empty",
           AuthError.runtimeException "Token environment cannot contain underscores"])
      ∧ (∀ msg, AuthError.runtimeException msg ≠ AuthError.invalidApiToken)) := by
  refine ⟨?_, ?_, ?_, ?_, ?_, by decide, fun msg h => by cases h⟩
  · intro h1
    simp [generate, h1]
  · intro h1 h2
    simp [generate, h1, h2]
  · intro h1 h2 h3
    simp [generate, h1, h2, h3]
  · intro h1 h2 h3 h4
    simp only [String.toList] at h4
    simp [generate, h1, h2, h3, h4]
  · intro h1 h2 h3 h4 h5
    simp only [String.toList] at h4
    unfold jsFalsy at h5
    cases hu : inp.userId with
    | none => simp [generate, h1, h2, h3, h4, hu]
    | some uid =>
      rw [hu] at h5
      simp only [beq_iff_eq] at h5
      simp [generate, h1, h2, h3, h4, hu, h5]

/-- C5 witness: each failure mode exercised at a concrete input. -/
theorem generate_error_taxonomy_witness :
    ((generate (fun s => s) (some "api_token") ⟨none, []⟩ ⟨"", "live", some "42", "p", []⟩).1
        = .error (.runtimeException "Token type cannot be empty"))
  ∧ ((generate (fun s => s) none ⟨none, []⟩ ⟨"api", "live", some "42", "p", []⟩).1
        = .error (.runtimeException "Token group cannot be empty"))
  ∧ ((generate (fun s => s) (some "api_token") ⟨none, []⟩ ⟨"api", "", some "42", "p", []⟩).1
        = .error (.runtimeException "Token environment cannot be empty"))
  ∧ ((generate (fun s => s) (some "api_token") ⟨none, []⟩ ⟨"api", "a_b", some "42", "p", []⟩).1
        = .error (.runtimeException "Token environment cannot contain underscores"))
  ∧ ((generate (fun s => s) (some "api_token") ⟨none, []⟩ ⟨"api", "live", none, "p", []⟩).1
        = .error (.runtimeException "Primary key value is missing for user")) :=
  ⟨(generate_error_taxonomy (fun s => s) (some "api_token") ⟨none, []⟩
      ⟨"", "live", some "42", "p", []⟩).1 rfl,
   (generate_error_taxonomy (fun s => s) none ⟨none, []⟩
      ⟨"api", "live", some "42", "p", []⟩).2.1 (by decide) rfl,
   (generate_error_taxonomy (fun s => s) (some "api_token") ⟨none, []⟩
      ⟨"api", "", some "42", "p", []⟩).2.2.1 (by decide) rfl rfl,
   (generate_error_taxonomy (fun s => s) (some "api_token") ⟨none, []⟩
      ⟨"api", "a_b", some "42", "p", []⟩).2.2.2.1 (by decide) rfl (by decide) (by decide),
   (generate_error_taxonomy (fun s => s) (some "api_token") ⟨none, []⟩
      ⟨"api", "live", none, "p", []⟩).2.2.2.2.1 (by decide) rfl (by decide) (by decide) rfl⟩

/-- C6: a successful `generate` call's collaborator trace is exactly the
serializer save followed by the encryption that builds the wire value — the
plain token is persisted strictly before the wire token is built — and the
saved record is in the resulting store, its plaintext being exactly the one
embedded (encrypted) in the returned wire token. -/
theorem generate_persist_before_wire (encrypt : String → String) (group : Option String)
    (st : AuthState) (inp : GenInput) (res : BearerResult)
    (h : (generate encrypt group st inp).1 = Except.ok res) :
    ∃ uid, inp.userId = some uid
  ∧ (generate encrypt group st inp).2.2
      = [GenEffect.saveToken uid inp.plainToken inp.tokenType inp.extra,
         GenEffect.encryptCall (uid ++ DELIMITER ++ inp.plainToken)]
  ∧ (⟨uid, inp.plainToken, inp.tokenType, inp.extra⟩ : StoredToken)
      ∈ (generate encrypt group st inp).2.1.store
  ∧ res.token = inp.tokenType ++ "_" ++ inp.environment ++ "_"
      ++ encrypt (uid ++ DELIMITER ++ inp.plainToken) := by
  have hg := generate_eq encrypt group st inp
  by_cases hok : genOk group inp
  · have hu := genOk_userId group inp hok
    refine ⟨uidOf inp, hu, ?_, ?_, ?_⟩
    · simp [hg, hok, payloadOf]
    · simp [hg, hok, recOf, uidOf]
    · rw [hg] at h
      simp only [hok, if_true] at h
      cases h
      simp [payloadOf]
  · rw [hg] at h
    simp [hok] at h

/-- C6 witness: the persist-before-wire property at a concrete input. -/
theorem generate_persist_before_wire_witness :
    (generate (fun s => s) (some "api_token") ⟨none, []⟩
        ⟨"api", "live", some "42", "deadbeef", []⟩).2.2
      = [GenEffect.saveToken "42" "deadbeef" "api" [],
         GenEffect.encryptCall ("42" ++ DELIMITER ++ "deadbeef")]
  ∧ (⟨"42", "deadbeef", "api", []⟩ : StoredToken)
      ∈ (generate (fun s => s) (some "api_token") ⟨none, []⟩
          ⟨"api", "live", some "42", "deadbeef", []⟩).2.1.store := by
  obtain ⟨uid, h1, h2, h3, -⟩ :=
    generate_persist_before_wire (fun s => s) (some "api_token") ⟨none, []⟩
      ⟨"api", "live", some "42", "deadbeef", []⟩ ⟨"bearer", "api_live_42:~~:deadbeef"⟩ rfl
  cases h1
  exact ⟨h2, h3⟩

/-- C9 counterexample: the claim asserts that on success `tokenType` contains
no underscore, but `generate` never validates `tokenType` for underscores: it
succeeds for `tokenType = "a_b"` and returns a wire token whose leading
segments misparse. -/
theorem generate_tokenType_underscore_cex :
    (generate (fun s => s) (some "api_token") ⟨none, []⟩
        ⟨"a_b", "live", some "42", "deadbeef", []⟩).1
      = Except.ok ⟨"bearer", "a_b_live_42:~~:deadbeef"⟩
  ∧ '_' ∈ "a_b".toList :=
  ⟨rfl, by decide⟩

/-- C9 (amended): every successful `generate` call returns
`{type := "bearer", token := tokenType_environment_cipher}` with the cipher
being the encryption of `userId ++ DELIMITER ++ plainToken`, and the
environment is non-empty and underscore-free; `tokenType`, however, is not
checked for underscores. -/
theorem generate_wire_format (encrypt : String → String) (group : Option String)
    (st : AuthState) (inp : GenInput) (res : BearerResult)
    (h : (generate encrypt group st inp).1 = Except.ok res) :
    res.type = "bearer"
  ∧ (∃ uid, inp.userId = some uid
      ∧ res.token = inp.tokenType ++ "_" ++ inp.environment ++ "_"
          ++ encrypt (uid ++ DELIMITER ++ inp.plainToken))
  ∧ inp.environment ≠ "" ∧ '_' ∉ inp.environment.toList := by
  have hg := generate_eq encrypt group st inp
  by_cases hok : genOk group inp
  · have hu := genOk_userId group inp hok
    rw [hg] at h
    simp only [hok, if_true] at h
    cases h
    have hev := hok
    unfold genOk at hev
    simp only [Bool.and_eq_true, Bool.not_eq_true', beq_eq_false_iff_ne, ne_eq,
      decide_eq_false_iff_not] at hev
    refine ⟨rfl, ⟨uidOf inp, hu, by simp [payloadOf]⟩, hev.1.1.2, hev.1.2⟩
  · rw [hg] at h
    simp [hok] at h

/-- C9 witness: the wire format at a concrete successful call. -/
theorem generate_wire_format_witness :
    ("api_live_42:~~:deadbeef" : String)
      = "api" ++ "_" ++ "live" ++ "_" ++ ("42" ++ DELIMITER ++ "deadbeef")
  ∧ ("live" : String) ≠ "" ∧ '_' ∉ "live".toList := by
  obtain ⟨-, ⟨uid, h1, h2⟩, h3, h4⟩ :=
    generate_wire_format (fun s => s) (some "api_token") ⟨none, []⟩
      ⟨"api", "live", some "42", "deadbeef", []⟩ ⟨"bearer", "api_live_42:~~:deadbeef"⟩ rfl
  cases h1
  exact ⟨h2, h3, h4⟩

/-- C10: `generate` never attaches a user to the request state — the attached
user is unchanged by every call, successful or failing — and the only
state-changing collaborator call it makes is (at most) the single serializer
save of the freshly generated plain token. -/
theorem generate_frame (encrypt : String → String) (group : Option String)
    (st : AuthState) (inp : GenInput) :
    (generate encrypt group st inp).2.1.user = st.user
  ∧ ((generate encrypt group st inp).2.2.filter stateChanging = []
      ∨ ∃ uid, inp.userId = some uid
          ∧ (generate encrypt group st inp).2.2.filter stateChanging
              = [GenEffect.saveToken uid inp.plainToken inp.tokenType inp.extra]) := by
  have hg := generate_eq encrypt group st inp
  by_cases hok : genOk group inp
  · exact ⟨by simp [hg, hok],
      Or.inr ⟨uidOf inp, genOk_userId group inp hok,
        by simp [hg, hok, stateChanging, List.filter]⟩⟩
  · exact ⟨by simp [hg, hok], Or.inl (by simp [hg, hok])⟩

/-- C1: the concrete scenario of the claim, evaluated on the code.  With
configured group `"api_token"` and user id `"42"`, `generate(user, 'api',
'live')` succeeds and returns the wire token `api_live_<cipher>` (first
conjunct, identity cipher).  Presenting that very token as
`Authorization: Bearer <token>` to `check()` does NOT return true: line 188 of
`src/Schemes/Api.js` evaluates the undeclared identifier `group`, so `check`
raises a `ReferenceError` (second conjunct) instead of attaching user 42. -/
theorem generateThenCheck_referenceError :
    generate (fun s => s) (some "api_token") ⟨none, []⟩
        ⟨"api", "live", some "42", "deadbeef", []⟩
      = (Except.ok ⟨"bearer", "api_live_42:~~:deadbeef"⟩,
         ⟨none, [⟨"42", "deadbeef", "api", []⟩]⟩,
         [GenEffect.saveToken "42" "deadbeef" "api" [],
          GenEffect.encryptCall "42:~~:deadbeef"])
  ∧ check (some "api_token") ⟨none, [⟨"42", "deadbeef", "api", []⟩]⟩
        (some "Bearer api_live_42:~~:deadbeef")
      = (Except.error (AuthError.referenceError "group"),
         ⟨none, [⟨"42", "deadbeef", "api", []⟩]⟩, [CheckEffect.readHeader]) :=
  ⟨rfl, rfl⟩

/-- C2: the complete failure behaviour of `check` for an unauthenticated
request.  A missing token does raise `InvalidApiToken`, but EVERY request that
presents a token — group mismatch included — raises
`ReferenceError("group")` from the undeclared identifier on line 188, not
`InvalidApiToken`: the decode/decrypt/group/environment/store checks the claim
describes are unreachable. -/
theorem check_failure_modes (group : Option String) (store : List StoredToken)
    (authorization : Option String) :
    check group ⟨none, store⟩ authorization
      = match getAuthHeader authorization with
        | none => (Except.error AuthError.invalidApiToken,
            (⟨none, store⟩ : AuthState), [CheckEffect.readHeader])
        | some _ => (Except.error (AuthError.referenceError "group"),
            (⟨none, store⟩ : AuthState), [CheckEffect.readHeader]) := by
  cases h : getAuthHeader authorization <;> simp [check, h]

/-- C7: `loginIfCan` evaluated on the code.  It indeed never raises (it is a
total boolean function), returns false with no `check` invocation and no
decrypt/store lookup when no token is present (first conjunct: the only
collaborator call is its own header read), and downgrades every `check` error
to false — but because `check` raises for every presented token, `loginIfCan`
returns false for EVERY request without an already-attached user (second
conjunct), including the claim's freshly generated valid token (third and
fourth conjuncts: the generated token's `check` path is reached, as the two
header reads show, and still yields false). -/
theorem loginIfCan_never_true_without_user :
    (∀ (group : Option String) (store : List StoredToken),
        loginIfCan group ⟨none, store⟩ none
          = (false, ⟨none, store⟩, [CheckEffect.readHeader]))
  ∧ (∀ (group : Option String) (store : List StoredToken) (authorization : Option String),
        (loginIfCan group ⟨none, store⟩ authorization).1 = false)
  ∧ (generate (fun s => s) (some "api_token") ⟨none, []⟩
        ⟨"api", "live", some "42", "deadbeef", []⟩).1
      = Except.ok ⟨"bearer", "api_live_42:~~:deadbeef"⟩
  ∧ loginIfCan (some "api_token") ⟨none, []⟩ (some "Bearer api_live_42:~~:deadbeef")
      = (false, ⟨none, []⟩, [CheckEffect.readHeader, CheckEffect.readHeader]) := by
  refine ⟨fun group store => rfl, fun group store authorization => ?_, rfl, rfl⟩
  cases h : getAuthHeader authorization <;> simp [loginIfCan, check, h]

/-- C8: `check` is idempotent within a request: whenever a user is already
attached it returns true immediately with an empty collaborator trace — no
header read, no decryption, no store lookup — leaving the state unchanged
(first conjunct); and a `check` call returns true exactly when a user is
attached (second conjunct), so after any successful call the user is still
attached and a repeated call again performs no lookups. -/
theorem check_idempotent (group : Option String) (store : List StoredToken)
    (authorization : Option String) :
    (∀ u : String, check group ⟨some u, store⟩ authorization
        = (Except.ok true, ⟨some u, store⟩, []))
  ∧ (∀ st : AuthState,
      ((check group st authorization).1 = Except.ok true ↔ st.user.isSome = true)) := by
  refine ⟨fun u => rfl, fun st => ?_⟩
  rcases st with ⟨u, s⟩
  cases u with
  | none => cases h : getAuthHeader authorization <;> simp [check, h]
  | some v => simp [check]

/-- Helper: the state after one `generate` call — the store is extended by the
saved record exactly when validation passes, the user is untouched. -/
theorem generate_state (encrypt : String → String) (group : Option String)
    (st : AuthState) (inp : GenInput) :
    (generate encrypt group st inp).2.1
      = if genOk group inp then ⟨st.user, st.store ++ [recOf inp]⟩ else st := by
  rw [generate_eq]
  by_cases hok : genOk group inp <;> simp [hok]

/-- Helper: the store after a sequence of `generate` calls is the initial
store extended by the records of the validation-passing calls, in order. -/
theorem runGenerates_state (encrypt : String → String) (group : Option String)
    (calls : List GenInput) :
    ∀ st : AuthState, runGenerates encrypt group st calls
      = ⟨st.user, st.store ++ (calls.filter (genOk group)).map recOf⟩ := by
  induction calls with
  | nil => intro st; simp [runGenerates]
  | cons c cs ih =>
    intro st
    have hstep : runGenerates encrypt group st (c :: cs)
        = runGenerates encrypt group ((generate encrypt group st c).2.1) cs := rfl
    rw [hstep, ih, generate_state]
    by_cases hok : genOk group c
    · simp [hok, List.filter_cons]
    · simp [hok, List.filter_cons]

/-- Helper: counting the records of type `'api_token'` belonging to `uid`
among those persisted by a call sequence. -/
theorem store_count (group : Option String) (uid : String) (l : List GenInput) :
    (((l.filter (genOk group)).map recOf).filter
        (fun r => r.userId == uid && r.ttype == "api_token")).length
      = (l.filter (fun c => genOk group c && (c.userId == some uid)
            && (c.tokenType == "api_token"))).length := by
  rw [List.filter_map, List.length_map, List.filter_filter]
  congr 1
  apply List.filter_congr
  intro c _
  by_cases hok : genOk group c
  · have hu := genOk_userId group c hok
    simp only [Function.comp, recOf, hok, Bool.and_true, Bool.true_and, hu]
    rw [Bool.eq_iff_iff]
    simp [Bool.and_eq_true, beq_iff_eq]
  · simp [hok, Function.comp]

/-- C4 counterexample: one successful `generate()` call with the default
tokenType `'api'` is made for user `"42"`, yet `listTokensForUser` returns the
empty sequence (length 0, not 1): it lists only records of the hard-coded
type `'api_token'`, which `generate`'s default `'api'` never matches. -/
theorem listTokensForUser_counterexample :
    (generate (fun s => s) (some "api_token") ⟨none, []⟩
        ⟨"api", "live", some "42", "deadbeef", []⟩).1
      = Except.ok ⟨"bearer", "api_live_42:~~:deadbeef"⟩
  ∧ listTokensForUser (fun s => s)
      (generate (fun s => s) (some "api_token") ⟨none, []⟩
        ⟨"api", "live", some "42", "deadbeef", []⟩).2.1
      (some "42") = [] :=
  ⟨rfl, rfl⟩

/-- C4 (amended): `listTokensForUser` returns the empty sequence for a
null/absent user; for a valid user, starting from an empty store, its length
equals the number of successful `generate()` calls previously made for that
user WITH tokenType `'api_token'` (the hard-coded type it lists; calls with
any other tokenType, including the default `'api'`, are not counted); and
every listed record is a persisted `'api_token'` record of that user with its
token identifier re-encrypted. -/
theorem listTokensForUser_count (encrypt : String → String) (group : Option String)
    (uid : String) (calls : List GenInput) :
    (∀ st : AuthState, listTokensForUser encrypt st none = [])
  ∧ (listTokensForUser encrypt (runGenerates encrypt group ⟨none, []⟩ calls)
        (some uid)).length
      = (calls.filter (fun c => genOk group c && (c.userId == some uid)
            && (c.tokenType == "api_token"))).length
  ∧ (∀ (st : AuthState) (r : StoredToken), r ∈ listTokensForUser encrypt st (some uid) →
        ∃ r0, r0 ∈ st.store ∧ r0.userId = uid ∧ r0.ttype = "api_token"
          ∧ r = ⟨r0.userId, encrypt r0.token, r0.ttype, r0.extra⟩) := by
  refine ⟨fun st => rfl, ?_, ?_⟩
  · rw [runGenerates_state]
    unfold listTokensForUser listTokens
    simp only [List.nil_append, List.length_map]
    exact store_count group uid calls
  · intro st r hr
    unfold listTokensForUser listTokens at hr
    simp only [List.mem_map, List.mem_filter] at hr
    obtain ⟨r0, ⟨hmem, hcond⟩, hre⟩ := hr
    simp only [Bool.and_eq_true, beq_iff_eq] at hcond
    refine ⟨r0, hmem, hcond.1, hcond.2, ?_⟩
    rw [← hre]

/-- C4 witness: the listing property at a concrete store holding one
`'api_token'` record, with the membership hypothesis discharged by
evaluation. -/
theorem listTokensForUser_count_witness :
    ((⟨"42", "p", "api_token", []⟩ : StoredToken)
        ∈ (⟨none, [⟨"42", "p", "api_token", []⟩]⟩ : AuthState).store)
  ∧ (⟨"42", "p", "api_token", []⟩ : StoredToken)
      = ⟨"42", (fun s : String => s) "p", "api_token", []⟩ := by
  obtain ⟨r0, hmem, hu, ht, hre⟩ :=
    (listTokensForUser_count (fun s => s) (some "api_token") "42" []).2.2
      ⟨none, [⟨"42", "p", "api_token", []⟩]⟩ ⟨"42", "p", "api_token", []⟩ (by decide)
  have hr0 : r0 = ⟨"42", "p", "api_token", []⟩ := by
    simpa using hmem
  subst hr0
  exact ⟨hmem, hre⟩
